import Mathlib

/-!
Verification of the `flop` TCP port scanner (`src/scanner.py`).

The Python program is shallowly embedded below.  Network behaviour is
abstracted as an oracle `Net : String → Int → ConnectOutcome` giving, for each
(host, port) pair, the outcome of `sock.connect_ex` (a return code, a raised
`socket.timeout`, or a raised `socket.error`).  The thread pool's
nondeterministic completion order (`concurrent.futures.as_completed`) is
modelled as an explicit list `order` of ports, constrained in theorems to be a
permutation of the submitted port range.  A future's `result()` call is
modelled by `TaskOutcome`: it either returns the `check_port` dictionary or
re-raises an unexpected exception.
-/

/-- Outcome of the single `sock.connect_ex((host, port))` call inside
`check_port`: either it returns an integer code (`0` = connected), or it
raises `socket.timeout`, or it raises a `socket.error`. -/
inductive ConnectOutcome where
  | retCode (n : Int)
  | timedOut
  | sockError
deriving DecidableEq

/-- The `status` field of a probe result dictionary: `"OPEN"` or `"CLOSED"`. -/
inductive Status where
  | OPEN
  | CLOSED
deriving DecidableEq

/-- The dictionary `{"port": ..., "status": ..., "service": ...}` returned by
`check_port`. -/
structure ProbeResult where
  port : Int
  status : Status
  service : String
deriving DecidableEq

/-- One record of the service catalog (`ports.json`).  Python reads the
description with `info.get("description", "Unknown")`, so the field may be
absent: we model it as an `Option`. -/
structure ServiceRecord where
  description : Option String
deriving DecidableEq

/-- A value of `self.ports_data[str(port)]`: either a single record or a
sequence of records (Python: `isinstance(port_info, list)`). -/
inductive PortEntry where
  | single (r : ServiceRecord)
  | seq (rs : List ServiceRecord)
deriving DecidableEq

/-- `self.ports_data`: the JSON mapping keyed by the decimal string of the
port.  Since `str` is injective on integers we key directly by the integer;
an association list models the JSON object. -/
def Catalog := List (Int × PortEntry)

/-- `port_str in self.ports_data` / `self.ports_data[port_str]`. -/
def lookupEntry (cat : Catalog) (port : Int) : Option PortEntry :=
  (cat.find? (fun kv => kv.1 == port)).map (fun kv => kv.2)

/-- `PortScanner.get_service` (scanner.py lines 25-38).  Missing key falls to
the final `return "Unknown"`; `port_info[0]` on an empty list raises
`IndexError`, caught by the `except (KeyError, IndexError)` clause; a record
without a `description` field yields the `.get` default `"Unknown"`. -/
def get_service (cat : Catalog) (port : Int) : String :=
  match lookupEntry cat port with
  | none => "Unknown"
  | some (PortEntry.single r) => r.description.getD "Unknown"
  | some (PortEntry.seq []) => "Unknown"
  | some (PortEntry.seq (r :: _)) => r.description.getD "Unknown"

/-- The network oracle: for each (host, port), the outcome of the one
`connect_ex` call a probe performs. -/
def Net := String → Int → ConnectOutcome

/-- `PortScanner.check_port` (scanner.py lines 40-66).  `connect_ex`
returning `0` takes the `OPEN` early return; any nonzero code falls through
to the trailing `CLOSED` return; a raised `socket.timeout` or `socket.error`
is swallowed by the `except` clause and also reaches the `CLOSED` return.
Both branches attach `self.get_service(port)`. -/
def check_port (cat : Catalog) (net : Net) (host : String) (port : Int) :
    ProbeResult :=
  match net host port with
  | ConnectOutcome.retCode n =>
      if n = 0 then
        { port := port, status := Status.OPEN, service := get_service cat port }
      else
        { port := port, status := Status.CLOSED, service := get_service cat port }
  | ConnectOutcome.timedOut =>
      { port := port, status := Status.CLOSED, service := get_service cat port }
  | ConnectOutcome.sockError =>
      { port := port, status := Status.CLOSED, service := get_service cat port }

/-- Events on the socket resource acquired by `check_port`. -/
inductive SockEv where
  | create
  | connectAttempt
  | close
deriving DecidableEq

/-- The sequence of socket operations `check_port` performs, by outcome of
the `connect_ex` call.  When `connect_ex` returns a code, the body executes
`sock.close()` (line 47) and the `finally` clause closes again (line 60);
when it raises, only the `finally` close runs. -/
def check_portEvents (o : ConnectOutcome) : List SockEv :=
  match o with
  | ConnectOutcome.retCode _ =>
      [SockEv.create, SockEv.connectAttempt, SockEv.close, SockEv.close]
  | ConnectOutcome.timedOut =>
      [SockEv.create, SockEv.connectAttempt, SockEv.close]
  | ConnectOutcome.sockError =>
      [SockEv.create, SockEv.connectAttempt, SockEv.close]

/-- Whether the socket is still open after a trace of events. -/
def sockOpenAfter (evs : List SockEv) : Bool :=
  evs.foldl
    (fun st e =>
      match e with
      | SockEv.create => true
      | SockEv.connectAttempt => st
      | SockEv.close => false)
    false

/-- What `future.result()` does for one submitted probe: return the
`check_port` dictionary, or re-raise an unexpected exception from the task
(caught by the `except Exception` clause in `scan`). -/
inductive TaskOutcome where
  | ok (r : ProbeResult)
  | exn
deriving DecidableEq

/-- Mutable state of `scan`'s collection loop: the `results` list, the
`ports_scanned` counter, and the sequence of `ports_scanned` values at which
a progress line was printed. -/
structure ScanState where
  results : List ProbeResult
  ports_scanned : Nat
  progress : List Nat
deriving DecidableEq

def initScanState : ScanState :=
  { results := [], ports_scanned := 0, progress := [] }

/-- One iteration of `for future in concurrent.futures.as_completed(...)`
(scanner.py lines 82-98).  A raised exception is caught and logged, leaving
the state unchanged; otherwise `ports_scanned` is incremented, a progress
line is printed every 1000 completions, and the result is appended to
`results` exactly when its status is `OPEN`. -/
def scanStep (s : ScanState) (t : TaskOutcome) : ScanState :=
  match t with
  | TaskOutcome.exn => s
  | TaskOutcome.ok r =>
      let ps := s.ports_scanned + 1
      { results := if r.status = Status.OPEN then s.results ++ [r] else s.results
        ports_scanned := ps
        progress := if ps % 1000 = 0 then s.progress ++ [ps] else s.progress }

/-- The whole collection loop over the completed futures in completion
order. -/
def scanLoop (ts : List TaskOutcome) : ScanState :=
  ts.foldl scanStep initScanState

/-- `sorted(results, key=lambda x: x["port"])`: Python's stable ascending
sort by the `port` key; `mergeSort` is likewise a stable sort. -/
def sortByPort (rs : List ProbeResult) : List ProbeResult :=
  rs.mergeSort (fun a b => a.port ≤ b.port)

/-- `range(start_port, end_port + 1)` as a list of integers: the ports for
which `scan` submits one probe task each. -/
def portRange (s e : Int) : List Int :=
  (List.range (e + 1 - s).toNat).map (fun i : Nat => s + (i : Int))

/-- `PortScanner.scan` (scanner.py lines 68-103).  `task p` is what
`future.result()` yields for the probe submitted for port `p`; `order` is
the completion order in which `as_completed` delivers the futures (theorems
constrain it to a permutation of `portRange start_port end_port`).
`ThreadPoolExecutor(max_workers=threads)` raises `ValueError` when
`threads <= 0`, before any task is submitted; that error is not caught by
the `except KeyboardInterrupt` clause and propagates to the caller.
Otherwise the loop runs to completion and the collected `results` are
returned sorted by port. -/
def scan (task : Int → TaskOutcome) (threads : Int) (order : List Int) :
    Except String (List ProbeResult) :=
  if threads ≤ 0 then Except.error "max_workers must be greater than 0"
  else Except.ok (sortByPort (scanLoop (order.map task)).results)

/-- `scan` when a `KeyboardInterrupt` arrives after `k` futures have been
collected (scanner.py lines 100-103): the loop stops, the handler catches
the interrupt, and the results gathered so far are returned sorted. -/
def scanInterrupted (task : Int → TaskOutcome) (threads : Int)
    (order : List Int) (k : Nat) : Except String (List ProbeResult) :=
  if threads ≤ 0 then Except.error "max_workers must be greater than 0"
  else Except.ok (sortByPort (scanLoop ((order.take k).map task)).results)

/-- The `OPEN` results the loop accumulates, extracted directly from the
completion sequence. -/
def openResults (ts : List TaskOutcome) : List ProbeResult :=
  ts.filterMap
    (fun t =>
      match t with
      | TaskOutcome.ok r => if r.status = Status.OPEN then some r else none
      | TaskOutcome.exn => none)

/-- Number of completions that did not raise. -/
def countOk (ts : List TaskOutcome) : Nat :=
  (ts.filter (fun t => t matches TaskOutcome.ok _)).length

/-- The ports of a result list. -/
def portsOf (rs : List ProbeResult) : List Int :=
  rs.map (fun r => r.port)

/-- Console output of `main` after `scan` returns (scanner.py lines
171-192), as the list of strings passed to `print`: empty result set prints
`"No open ports found"` and returns; otherwise an optional file-written
notice, the header `"\nOpen ports:"`, and one line per result. -/
def portLine (r : ProbeResult) : String :=
  "Port " ++ toString r.port ++ ": " ++ r.service

def consoleAfterScan (results : List ProbeResult) (output : Option String) :
    List String :=
  if results.isEmpty then ["No open ports found"]
  else
    (match output with
     | some o => ["\nResults written to " ++ o]
     | none => []) ++ ["\nOpen ports:"] ++ results.map portLine

/-- Modelled from the spec: the "summary line count of open ports found"
that §6 of the spec claims the console always shows for a non-empty result
set.  The source has no such line, so this definition follows the spec's
words, to be compared with `consoleAfterScan`. -/
def countSummaryLine (n : Nat) : String :=
  toString n ++ " open ports found"

/-! ### Helper definitions for witnesses and counterexamples -/

/-- A network where every connection attempt is refused
(`connect_ex` returns a nonzero error code). -/
def netRefused : Net := fun _ _ => ConnectOutcome.retCode 111

/-- A network where exactly port 80 accepts connections. -/
def witNet : Net :=
  fun _ p => if p = 80 then ConnectOutcome.retCode 0 else ConnectOutcome.retCode 111

/-- A catalog with a single well-formed entry for port 80. -/
def witCat : Catalog := [(80, PortEntry.single ⟨some "HTTP"⟩)]

/-- The normal task behaviour: every future returns its probe's result. -/
def witTask : Int → TaskOutcome :=
  fun p => TaskOutcome.ok (check_port witCat witNet "example.com" p)

/-! ### Structural lemmas about the scan loop -/

theorem foldl_scanStep_results (ts : List TaskOutcome) (s : ScanState) :
    (ts.foldl scanStep s).results = s.results ++ openResults ts := by
  induction ts generalizing s with
  | nil => simp [openResults]
  | cons t ts ih =>
    cases t with
    | exn => simp [List.foldl_cons, scanStep, openResults, List.filterMap_cons, ih]
    | ok r =>
      by_cases h : r.status = Status.OPEN
      · simp [List.foldl_cons, scanStep, openResults, List.filterMap_cons, ih, h]
      · simp [List.foldl_cons, scanStep, openResults, List.filterMap_cons, ih, h]

theorem scanLoop_results (ts : List TaskOutcome) :
    (scanLoop ts).results = openResults ts := by
  simpa [scanLoop, initScanState] using foldl_scanStep_results ts initScanState

theorem foldl_scanStep_count (ts : List TaskOutcome) (s : ScanState) :
    (ts.foldl scanStep s).ports_scanned = s.ports_scanned + countOk ts := by
  induction ts generalizing s with
  | nil => simp [countOk]
  | cons t ts ih =>
    cases t with
    | exn => simp [List.foldl_cons, scanStep, countOk, List.filter_cons, ih]
    | ok r =>
      simp only [List.foldl_cons, scanStep, countOk, List.filter_cons, ih]
      simp [countOk]
      omega

theorem scanLoop_count (ts : List TaskOutcome) :
    (scanLoop ts).ports_scanned = countOk ts := by
  simpa [scanLoop, initScanState] using foldl_scanStep_count ts initScanState

theorem countOk_le_length (ts : List TaskOutcome) : countOk ts ≤ ts.length :=
  List.length_filter_le _ ts

theorem foldl_scanStep_progress (ts : List TaskOutcome) (s : ScanState)
    (hsorted : s.progress.Pairwise (· < ·))
    (hle : ∀ x ∈ s.progress, x ≤ s.ports_scanned) :
    ((ts.foldl scanStep s).progress.Pairwise (· < ·)) ∧
      ∀ x ∈ (ts.foldl scanStep s).progress, x ≤ (ts.foldl scanStep s).ports_scanned := by
  induction ts generalizing s with
  | nil => exact ⟨hsorted, hle⟩
  | cons t ts ih =>
    cases t with
    | exn => exact ih s hsorted hle
    | ok r =>
      simp only [List.foldl_cons]
      by_cases h : (s.ports_scanned + 1) % 1000 = 0
      · refine ih _ ?_ ?_
        · simp only [scanStep, h, if_pos]
          rw [List.pairwise_append]
          refine ⟨hsorted, by simp, ?_⟩
          intro a ha b hb
          simp only [List.mem_singleton] at hb
          subst hb
          exact Nat.lt_succ_of_le (hle a ha)
        · simp only [scanStep, h, if_pos]
          intro x hx
          rcases List.mem_append.mp hx with hx | hx
          · exact Nat.le_succ_of_le (hle x hx)
          · simp only [List.mem_singleton] at hx
            omega
      · refine ih _ ?_ ?_
        · simpa [scanStep, h] using hsorted
        · simp only [scanStep, h, if_neg, not_false_iff]
          intro x hx
          exact Nat.le_succ_of_le (hle x hx)

theorem scanLoop_progress (ts : List TaskOutcome) :
    ((scanLoop ts).progress.Pairwise (· < ·)) ∧
      ∀ x ∈ (scanLoop ts).progress, x ≤ countOk ts := by
  have h := foldl_scanStep_progress ts initScanState (by simp [initScanState])
    (by simp [initScanState])
  rw [scanLoop]
  exact ⟨h.1, fun x hx => (h.2 x hx).trans_eq (scanLoop_count ts)⟩

/-! ### Membership and port facts about the collected results -/

theorem mem_openResults {r : ProbeResult} {ts : List TaskOutcome} :
    r ∈ openResults ts ↔ TaskOutcome.ok r ∈ ts ∧ r.status = Status.OPEN := by
  simp only [openResults, List.mem_filterMap]
  constructor
  · rintro ⟨t, ht, hf⟩
    cases t with
    | exn => simp at hf
    | ok r' =>
      by_cases h : r'.status = Status.OPEN
      · simp only [h, if_true] at hf
        cases Option.some.inj hf
        exact ⟨ht, h⟩
      · simp [h] at hf
  · rintro ⟨ht, h⟩
    exact ⟨TaskOutcome.ok r, ht, by simp [h]⟩

theorem openResults_ports_sublist (order : List Int) (task : Int → TaskOutcome)
    (h : ∀ p r, task p = TaskOutcome.ok r → r.port = p) :
    (portsOf (openResults (order.map task))).Sublist order := by
  induction order with
  | nil => simp [openResults, portsOf]
  | cons p ps ih =>
    rw [List.map_cons]
    cases htp : task p with
    | exn =>
      simp only [openResults, portsOf, List.filterMap_cons, htp]
      exact (ih).cons p
    | ok r =>
      by_cases hst : r.status = Status.OPEN
      · simp only [openResults, portsOf, List.filterMap_cons, htp, if_pos hst,
          List.map_cons]
        rw [h p r htp]
        exact (ih).cons₂ p
      · simp only [openResults, portsOf, List.filterMap_cons, htp, if_neg hst]
        exact (ih).cons p

theorem portRange_nodup (s e : Int) : (portRange s e).Nodup := by
  unfold portRange
  refine List.Nodup.map ?_ (List.nodup_range _)
  intro i j hij
  have h2 : s + (i : Int) = s + (j : Int) := hij
  omega

theorem mem_portRange {s e p : Int} : p ∈ portRange s e ↔ s ≤ p ∧ p ≤ e := by
  simp only [portRange, List.mem_map, List.mem_range]
  constructor
  · rintro ⟨i, hi, hip⟩
    have h2 : s + (i : Int) = p := hip
    omega
  · rintro ⟨h1, h2⟩
    refine ⟨(p - s).toNat, by omega, ?_⟩
    show s + ((p - s).toNat : Int) = p
    omega

/-! ### Facts about the final sort -/

theorem sortByPort_perm (rs : List ProbeResult) : (sortByPort rs).Perm rs :=
  List.mergeSort_perm rs _

theorem sortByPort_sorted (rs : List ProbeResult) :
    (sortByPort rs).Pairwise (fun a b => a.port ≤ b.port) := by
  unfold sortByPort
  refine List.Pairwise.imp ?_ (List.sorted_mergeSort ?_ ?_ rs)
  · intro a b hab
    exact of_decide_eq_true hab
  · intro a b c hab hbc
    exact decide_eq_true (le_trans (of_decide_eq_true hab) (of_decide_eq_true hbc))
  · intro a b
    rcases le_total a.port b.port with h | h
    · simp [h]
    · simp [h]

theorem pairwise_lt_of_le_nodup {rs : List ProbeResult}
    (hle : rs.Pairwise (fun a b => a.port ≤ b.port))
    (hnd : (portsOf rs).Nodup) :
    (portsOf rs).Pairwise (· < ·) := by
  have h1 : (portsOf rs).Pairwise (· ≤ ·) := by
    simpa [portsOf, List.pairwise_map] using hle
  have h2 : (portsOf rs).Pairwise (· ≠ ·) := hnd
  exact (h1.and h2).imp (fun h => lt_of_le_of_ne h.1 h.2)

theorem scan_eq_ok (task : Int → TaskOutcome) (threads : Int) (order : List Int)
    (hthreads : 1 ≤ threads) :
    scan task threads order =
      Except.ok (sortByPort (openResults (order.map task))) := by
  rw [scan, if_neg (by omega), scanLoop_results]

theorem check_port_port_eq (cat : Catalog) (net : Net) (host : String)
    (port : Int) : (check_port cat net host port).port = port := by
  unfold check_port
  cases net host port with
  | retCode n =>
    by_cases h : n = 0
    · simp [h]
    · simp [h]
  | timedOut => rfl
  | sockError => rfl

/-- C2: `check_port` classifies a probe `OPEN` exactly when the connection
attempt establishes successfully (`connect_ex` returns 0), and `CLOSED` when
the connection is refused (nonzero code), times out, or hits any
socket-level error; in both cases the returned result carries the port, the
status, and the service label obtained from the catalog lookup for that
port. -/
theorem check_port_classification (cat : Catalog) (net : Net) (host : String)
    (port : Int) :
    ((check_port cat net host port).status = Status.OPEN ↔
      net host port = ConnectOutcome.retCode 0) ∧
    ((check_port cat net host port).status = Status.CLOSED ↔
      net host port ≠ ConnectOutcome.retCode 0) ∧
    (check_port cat net host port).port = port ∧
    (check_port cat net host port).service = get_service cat port := by
  unfold check_port
  cases h : net host port with
  | retCode n =>
    by_cases hn : n = 0
    · subst hn
      simp
    · simp [hn]
  | timedOut => simp
  | sockError => simp

/-- C4: for every integer port, if the catalog has no entry for that port,
or the entry present is malformed (an empty sequence, or a record missing
the description field), `get_service` returns the string `"Unknown"` rather
than raising. -/
theorem get_service_unknown (cat : Catalog) (port : Int)
    (h : lookupEntry cat port = none ∨
      lookupEntry cat port = some (PortEntry.seq []) ∨
      (∃ r, (lookupEntry cat port = some (PortEntry.single r) ∨
             ∃ rest, lookupEntry cat port = some (PortEntry.seq (r :: rest))) ∧
        r.description = none)) :
    get_service cat port = "Unknown" := by
  unfold get_service
  rcases h with h | h | ⟨r, hr | ⟨rest, hr⟩, hd⟩
  · rw [h]
  · rw [h]
  · rw [hr]
    simp [hd]
  · rw [hr]
    simp [hd]

/-- A catalog holding a malformed empty-sequence entry (port 81), a record
with no description field (port 82), and a sequence whose first record has
no description field (port 83). -/
def witBadCat : Catalog :=
  [(81, PortEntry.seq []), (82, PortEntry.single ⟨none⟩),
   (83, PortEntry.seq [⟨none⟩])]

/-- Witness for C4: the missing-entry, empty-sequence and
missing-description cases all yield "Unknown" on a concrete catalog. -/
theorem get_service_unknown_witness :
    get_service witBadCat 9999 = "Unknown" ∧
    get_service witBadCat 81 = "Unknown" ∧
    get_service witBadCat 82 = "Unknown" ∧
    get_service witBadCat 83 = "Unknown" :=
  ⟨get_service_unknown witBadCat 9999 (Or.inl (by decide)),
   get_service_unknown witBadCat 81 (Or.inr (Or.inl (by decide))),
   get_service_unknown witBadCat 82
     (Or.inr (Or.inr ⟨⟨none⟩, Or.inl (by decide), rfl⟩)),
   get_service_unknown witBadCat 83
     (Or.inr (Or.inr ⟨⟨none⟩, Or.inr ⟨[], by decide⟩, rfl⟩))⟩

/-- C7: every socket resource acquired by `check_port` is released before
the call returns, on every exit path: successful connection, refused or
timed-out connection, and exceptional exit. -/
theorem check_port_releases_socket (o : ConnectOutcome) :
    sockOpenAfter (check_portEvents o) = false ∧
      SockEv.close ∈ check_portEvents o := by
  cases o <;> exact ⟨rfl, by simp [check_portEvents]⟩

/-- C1: for every scan invocation — any thread count ≥ 1, any completion
order of the submitted port range, futures yielding `check_port`'s result
whenever they do not raise — the list returned by `scan` contains only
results classified OPEN, is sorted strictly ascending by port number, and
contains no duplicate ports. -/
theorem scan_results_open_sorted_nodup (cat : Catalog) (net : Net)
    (host : String) (task : Int → TaskOutcome) (s e threads : Int)
    (order : List Int) (hthreads : 1 ≤ threads)
    (hperm : order.Perm (portRange s e))
    (htask : ∀ p r, task p = TaskOutcome.ok r → r = check_port cat net host p) :
    ∃ rs, scan task threads order = Except.ok rs ∧
      (∀ r ∈ rs, r.status = Status.OPEN) ∧
      (portsOf rs).Pairwise (· < ·) ∧
      (portsOf rs).Nodup := by
  have hport : ∀ p r, task p = TaskOutcome.ok r → r.port = p := by
    intro p r h
    rw [htask p r h, check_port_port_eq]
  have hnodup : (portsOf (sortByPort (openResults (order.map task)))).Nodup := by
    have hsub := openResults_ports_sublist order task hport
    have hordernd : order.Nodup := (hperm.nodup_iff).mpr (portRange_nodup s e)
    have h1 : (portsOf (openResults (order.map task))).Nodup :=
      hsub.nodup hordernd
    have hpermp : (portsOf (sortByPort (openResults (order.map task)))).Perm
        (portsOf (openResults (order.map task))) := by
      unfold portsOf
      exact (sortByPort_perm _).map (fun r => r.port)
    exact (hpermp.nodup_iff).mpr h1
  refine ⟨sortByPort (openResults (order.map task)),
    scan_eq_ok task threads order hthreads, ?_, ?_, hnodup⟩
  · intro r hr
    have hr' : r ∈ openResults (order.map task) :=
      ((sortByPort_perm _).mem_iff).mp hr
    exact (mem_openResults.mp hr').2
  · exact pairwise_lt_of_le_nodup (sortByPort_sorted _) hnodup

/-- Witness for C1 on a concrete three-port scan of 79-81 with port 80
open, completions arriving out of order. -/
theorem scan_results_open_sorted_nodup_witness :
    ∃ rs, scan witTask 16 [81, 79, 80] = Except.ok rs ∧
      (∀ r ∈ rs, r.status = Status.OPEN) ∧
      (portsOf rs).Pairwise (· < ·) ∧
      (portsOf rs).Nodup :=
  scan_results_open_sorted_nodup witCat witNet "example.com" witTask 79 81 16
    [81, 79, 80] (by decide) (by decide)
    (by
      intro p r h
      simp only [witTask, TaskOutcome.ok.injEq] at h
      exact h.symm)

/-- C5: if an external interruption signal arrives after `k` futures have
been collected, `scan` still returns — as a normal value, not an error —
exactly the OPEN results collected before the interruption, sorted
ascending by port, rather than discarding them. -/
theorem scanInterrupted_returns_collected (cat : Catalog) (net : Net)
    (host : String) (task : Int → TaskOutcome) (s e threads : Int)
    (order : List Int) (k : Nat) (hthreads : 1 ≤ threads)
    (hperm : order.Perm (portRange s e))
    (htask : ∀ p r, task p = TaskOutcome.ok r → r = check_port cat net host p) :
    ∃ rs, scanInterrupted task threads order k = Except.ok rs ∧
      rs.Perm (openResults ((order.take k).map task)) ∧
      (∀ r ∈ rs, r.status = Status.OPEN) ∧
      (portsOf rs).Pairwise (· < ·) := by
  have hport : ∀ p r, task p = TaskOutcome.ok r → r.port = p := by
    intro p r h
    rw [htask p r h, check_port_port_eq]
  have heq : scanInterrupted task threads order k =
      Except.ok (sortByPort (openResults ((order.take k).map task))) := by
    rw [scanInterrupted, if_neg (by omega), scanLoop_results]
  have hnodup :
      (portsOf (sortByPort (openResults ((order.take k).map task)))).Nodup := by
    have hsub := openResults_ports_sublist (order.take k) task hport
    have hordernd : order.Nodup := (hperm.nodup_iff).mpr (portRange_nodup s e)
    have htknd : (order.take k).Nodup :=
      (List.take_sublist k order).nodup hordernd
    have h1 : (portsOf (openResults ((order.take k).map task))).Nodup :=
      hsub.nodup htknd
    have hpermp :
        (portsOf (sortByPort (openResults ((order.take k).map task)))).Perm
          (portsOf (openResults ((order.take k).map task))) := by
      unfold portsOf
      exact (sortByPort_perm _).map (fun r => r.port)
    exact (hpermp.nodup_iff).mpr h1
  refine ⟨sortByPort (openResults ((order.take k).map task)), heq,
    sortByPort_perm _, ?_, ?_⟩
  · intro r hr
    have hr' : r ∈ openResults ((order.take k).map task) :=
      ((sortByPort_perm _).mem_iff).mp hr
    exact (mem_openResults.mp hr').2
  · exact pairwise_lt_of_le_nodup (sortByPort_sorted _) hnodup

/-- Witness for C5: a scan of 79-81 interrupted after two of the three
completions. -/
theorem scanInterrupted_returns_collected_witness :
    ∃ rs, scanInterrupted witTask 16 [81, 80, 79] 2 = Except.ok rs ∧
      rs.Perm (openResults (([81, 80, 79].take 2).map witTask)) ∧
      (∀ r ∈ rs, r.status = Status.OPEN) ∧
      (portsOf rs).Pairwise (· < ·) :=
  scanInterrupted_returns_collected witCat witNet "example.com" witTask 79 81
    16 [81, 80, 79] 2 (by decide) (by decide)
    (by
      intro p r h
      simp only [witTask, TaskOutcome.ok.injEq] at h
      exact h.symm)

/-- C6: if the probe task for one port raises an unexpected error, `scan`
catches it at the task boundary, excludes that port from the results, and
still completes with correct results for every other port in the range; the
error never propagates out of `scan` (the return value is `Except.ok`). -/
theorem scan_isolates_task_error (cat : Catalog) (net : Net) (host : String)
    (task : Int → TaskOutcome) (bad : Int) (s e threads : Int)
    (order : List Int) (hthreads : 1 ≤ threads)
    (hperm : order.Perm (portRange s e))
    (htask : ∀ p, task p =
      if p = bad then TaskOutcome.exn
      else TaskOutcome.ok (check_port cat net host p)) :
    ∃ rs, scan task threads order = Except.ok rs ∧
      bad ∉ portsOf rs ∧
      ∀ p, p ∈ portRange s e → p ≠ bad →
        (check_port cat net host p ∈ rs ↔
          (check_port cat net host p).status = Status.OPEN) := by
  refine ⟨sortByPort (openResults (order.map task)),
    scan_eq_ok task threads order hthreads, ?_, ?_⟩
  · intro hmem
    rcases List.mem_map.mp hmem with ⟨r, hr, hrport⟩
    have hr1 : r ∈ openResults (order.map task) :=
      ((sortByPort_perm _).mem_iff).mp hr
    have hr2 := (mem_openResults.mp hr1).1
    rcases List.mem_map.mp hr2 with ⟨p, hp, hpr⟩
    by_cases hpb : p = bad
    · rw [htask p, if_pos hpb] at hpr
      exact TaskOutcome.noConfusion hpr
    · rw [htask p, if_neg hpb] at hpr
      have hcp := TaskOutcome.ok.inj hpr
      have hport : r.port = p := by
        rw [← hcp, check_port_port_eq]
      exact hpb (hport.symm.trans hrport)
  · intro p hpr hpb
    constructor
    · intro hin
      have hr1 : check_port cat net host p ∈ openResults (order.map task) :=
        ((sortByPort_perm _).mem_iff).mp hin
      exact (mem_openResults.mp hr1).2
    · intro hst
      have hpm : p ∈ order := (hperm.mem_iff).mpr hpr
      have hok : TaskOutcome.ok (check_port cat net host p) ∈ order.map task := by
        refine List.mem_map.mpr ⟨p, hpm, ?_⟩
        rw [htask p, if_neg hpb]
      have h2 : check_port cat net host p ∈ openResults (order.map task) :=
        mem_openResults.mpr ⟨hok, hst⟩
      exact ((sortByPort_perm _).mem_iff).mpr h2

/-- The task behaviour in which the probe for port 79 raises an unexpected
error and every other future returns its probe's result. -/
def witTaskBad : Int → TaskOutcome :=
  fun p =>
    if p = 79 then TaskOutcome.exn
    else TaskOutcome.ok (check_port witCat witNet "example.com" p)

/-- Witness for C6: the probe for port 79 raises, the scan of 79-81 still
completes with correct results for ports 80 and 81. -/
theorem scan_isolates_task_error_witness :
    ∃ rs, scan witTaskBad 16 [80, 81, 79] = Except.ok rs ∧
      (79 : Int) ∉ portsOf rs ∧
      ∀ p, p ∈ portRange 79 81 → p ≠ 79 →
        (check_port witCat witNet "example.com" p ∈ rs ↔
          (check_port witCat witNet "example.com" p).status = Status.OPEN) :=
  scan_isolates_task_error witCat witNet "example.com" witTaskBad 79 79 81 16
    [80, 81, 79] (by decide) (by decide) (fun p => rfl)

/-- C8: for every scan over a range of K ports, the sequence of emitted
progress completed-counts is monotonically non-decreasing, and no emitted
completed-count exceeds K. -/
theorem scan_progress_monotone (task : Int → TaskOutcome) (s e : Int)
    (K : Nat) (order : List Int)
    (hperm : order.Perm (portRange s e))
    (hK : K = (portRange s e).length) :
    ((scanLoop (order.map task)).progress.Pairwise (· ≤ ·)) ∧
      ∀ x ∈ (scanLoop (order.map task)).progress, x ≤ K := by
  have h := scanLoop_progress (order.map task)
  refine ⟨h.1.imp (fun hab => le_of_lt hab), ?_⟩
  intro x hx
  have h1 := h.2 x hx
  have h2 : countOk (order.map task) ≤ (order.map task).length :=
    countOk_le_length _
  have h3 : (order.map task).length = order.length := by simp
  have h4 : order.length = (portRange s e).length := hperm.length_eq
  omega

/-- Witness for C8 on a concrete three-port scan. -/
theorem scan_progress_monotone_witness :
    ((scanLoop ([79, 80, 81].map witTask)).progress.Pairwise (· ≤ ·)) ∧
      ∀ x ∈ (scanLoop ([79, 80, 81].map witTask)).progress, x ≤ 3 :=
  scan_progress_monotone witTask 79 81 3 [79, 80, 81] (by decide) (by decide)

/-- C3 counterexample: the request (host "localhost", range 0-1, 16
threads) violates the validated invariant `1 ≤ start_port`, yet `scan`
submits a probe task for each of ports 0 and 1 (the submitted range is
`[0, 1]`, not empty) and returns normally with `Except.ok`, surfacing no
error to the caller. -/
theorem scan_range_not_validated_cex :
    ¬ ((1 : Int) ≤ 0) ∧
    portRange 0 1 = [0, 1] ∧
    scan (fun p => TaskOutcome.ok (check_port [] netRefused "localhost" p)) 16
        (portRange 0 1) = Except.ok [] := by
  refine ⟨by decide, by decide, ?_⟩
  rw [scan_eq_ok _ 16 _ (by decide)]
  have h1 : openResults ((portRange 0 1).map
      (fun p => TaskOutcome.ok (check_port [] netRefused "localhost" p))) = [] := by
    decide
  rw [h1]
  simp [sortByPort]

/-- C3 amended: only a concurrency violation (`concurrency < 1`) is
surfaced to the caller as an error before any probe work is dispatched —
raised by the worker-pool constructor; the port-range invariant
`1 ≤ start_port ≤ end_port ≤ 65535` is not validated anywhere, and every
invocation with `concurrency ≥ 1` probes its range as-is and returns
normally. -/
theorem scan_invalid_request_amended (task : Int → TaskOutcome)
    (threads : Int) (order : List Int) :
    (threads ≤ 0 →
      scan task threads order =
        Except.error "max_workers must be greater than 0") ∧
    (1 ≤ threads →
      scan task threads order =
        Except.ok (sortByPort (openResults (order.map task)))) := by
  constructor
  · intro h
    rw [scan, if_pos h]
  · intro h
    exact scan_eq_ok task threads order h

/-- Witness for the amended C3: concurrency 0 is rejected before dispatch;
concurrency 16 proceeds with no validation of the range. -/
theorem scan_invalid_request_amended_witness :
    scan witTask 0 [80] = Except.error "max_workers must be greater than 0" ∧
    scan witTask 16 [80] =
      Except.ok (sortByPort (openResults ([80].map witTask))) :=
  ⟨(scan_invalid_request_amended witTask 0 [80]).1 (by decide),
   (scan_invalid_request_amended witTask 16 [80]).2 (by decide)⟩

/-- C9 counterexample: after a scan that found open port 80, the console
output is exactly the header line and the per-port line; it contains no
summary line with the count of open ports found. -/
theorem console_count_summary_cex :
    consoleAfterScan
        [{ port := 80, status := Status.OPEN, service := "HTTP" }] none =
      ["\nOpen ports:", "Port 80: HTTP"] ∧
    countSummaryLine 1 ∉
      consoleAfterScan
        [{ port := 80, status := Status.OPEN, service := "HTTP" }] none := by
  refine ⟨rfl, ?_⟩
  decide


/-- C9 amended: after a scan completes, the console output contains the
plain header `"Open ports:"` (with no count) when the result set is
non-empty, or the explicit `"No open ports found"` message when it is
empty, followed in the non-empty case by one line per open port in the
form `Port <n>: <service>` — regardless of whether a file output target
was given. -/
theorem console_output_amended (results : List ProbeResult)
    (output : Option String) :
    (results = [] → consoleAfterScan results output = ["No open ports found"]) ∧
    (results ≠ [] →
      "\nOpen ports:" ∈ consoleAfterScan results output ∧
      ∃ pre, consoleAfterScan results output =
        pre ++ ["\nOpen ports:"] ++ results.map portLine) := by
  constructor
  · intro h
    subst h
    rfl
  · intro h
    have hne : results.isEmpty = false := by
      cases results with
      | nil => exact absurd rfl h
      | cons a l => rfl
    unfold consoleAfterScan
    rw [hne]
    simp only [Bool.false_eq_true, if_false]
    constructor
    · exact List.mem_append.mpr (Or.inl (List.mem_append.mpr (Or.inr (by simp))))
    · exact ⟨_, rfl⟩

/-- Witness for the amended C9: a non-empty result set with a file output
target still gets the header, followed by the per-port console lines. -/
theorem console_output_amended_witness :
    "\nOpen ports:" ∈
      consoleAfterScan
        [{ port := 80, status := Status.OPEN, service := "HTTP" }]
        (some "out.txt") ∧
    ∃ pre, consoleAfterScan
        [{ port := 80, status := Status.OPEN, service := "HTTP" }]
        (some "out.txt") =
      pre ++ ["\nOpen ports:"] ++
        [{ port := 80, status := Status.OPEN, service := "HTTP" }].map portLine :=
  (console_output_amended
    [{ port := 80, status := Status.OPEN, service := "HTTP" }]
    (some "out.txt")).2 (by decide)

/-- C10 counterexample: invoking `scan` with start_port 5 strictly greater
than end_port 3 but concurrency 0 raises the worker-pool `ValueError`
instead of returning the empty list. -/
theorem scan_empty_range_cex :
    (3 : Int) < 5 ∧
    scan witTask 0 (portRange 5 3) =
      Except.error "max_workers must be greater than 0" :=
  ⟨by decide, rfl⟩

/-- C10 amended: for every scan invocation with concurrency ≥ 1 in which
start_port is strictly greater than end_port, the submitted port range is
empty (no probes are dispatched) and `scan` returns the empty list without
raising. -/
theorem scan_empty_range (task : Int → TaskOutcome) (s e threads : Int)
    (order : List Int) (hthreads : 1 ≤ threads) (hlt : e < s)
    (hperm : order.Perm (portRange s e)) :
    portRange s e = [] ∧ scan task threads order = Except.ok [] := by
  have hr : portRange s e = [] := by
    unfold portRange
    have h0 : (e + 1 - s).toNat = 0 := by omega
    rw [h0]
    rfl
  have ho : order = [] := (hr ▸ hperm).eq_nil
  subst ho
  refine ⟨hr, ?_⟩
  rw [scan_eq_ok task threads [] hthreads]
  simp [openResults, sortByPort]

/-- Witness for the amended C10 at the concrete empty range 5-3. -/
theorem scan_empty_range_witness :
    portRange 5 3 = [] ∧ scan witTask 16 [] = Except.ok [] :=
  scan_empty_range witTask 5 3 16 [] (by decide) (by decide) (by decide)
